import Mathlib

/-!
# tt-sim: compute kernel and host drivers

A shallow embedding of

* `driver/wormhole/loopback/kernels/compute/compute_kernel.cpp` (the compute kernel `MAIN`),
* `driver/wormhole/three/src/three.cpp` (host driver over `uint32_t` data),
* `driver/wormhole/four-fp/src/four-fp.cpp` (host driver over `float` data),

followed by theorems about them.

The compute kernel has no data-dependent control flow: the sequence of device API calls it
issues is a function of its two runtime arguments only.  `MAIN` is therefore embedded as the
function from the runtime-argument words to that call sequence, and the effect of the calls on
the circular buffers and the dst registers is given by `exec_op`.
-/

namespace TTSim

/-! ## Compute kernel: `compute_kernel.cpp` -/

/-- Circular buffer indices (`tt::CBIndex`) used by the kernel and the hosts. -/
inductive CBIndex where
  | c_0
  | c_1
  | c_2
  deriving DecidableEq, Repr

/-- Device API calls issued by the compute kernel, with their arguments. -/
inductive Op where
  | init_sfpu (icb ocb : CBIndex)
  | add_int_tile_init
  | cb_wait_front (cb : CBIndex) (n : Nat)
  | tile_regs_acquire
  | copy_tile (cb : CBIndex) (in_tile_index dst_tile_index : Nat)
  | tile_regs_commit
  | cb_pop_front (cb : CBIndex) (n : Nat)
  | cb_reserve_back (cb : CBIndex) (n : Nat)
  | tile_regs_wait
  | pack_tile (dst_index : Nat) (cb : CBIndex)
  | tile_regs_release
  | cb_push_back (cb : CBIndex) (n : Nat)
  deriving DecidableEq, Repr

/-- Line 10: `constexpr auto cb_in0 = tt::CBIndex::c_0;` -/
def cb_in0 : CBIndex := CBIndex.c_0

/-- Line 11: `constexpr auto cb_out0 = tt::CBIndex::c_1;` -/
def cb_out0 : CBIndex := CBIndex.c_1

/-- Reads runtime argument word `idx` as a `uint32_t` (`get_arg_val<uint32_t>(idx)`).
Reading a word that was never bound has no defined value. -/
def get_arg_val (args : List Nat) (idx : Nat) : Option Nat :=
  (args.get? idx).map (fun w => w % 2 ^ 32)

/-- Lines 19-46: the calls of one iteration of the chunk loop, in program order. -/
def chunk_body : List Op :=
  [ Op.cb_wait_front cb_in0 1,
    Op.tile_regs_acquire,
    Op.copy_tile cb_in0 0 2,
    Op.tile_regs_commit,
    Op.cb_pop_front cb_in0 1,
    Op.cb_reserve_back cb_out0 1,
    Op.tile_regs_wait,
    Op.pack_tile 2 cb_out0,
    Op.tile_regs_release,
    Op.cb_push_back cb_out0 1 ]

/-- Lines 18-47: `for (uint32_t i=0;i<num_chunks;i++) { ... }`, entered with counter `i`.
The counter is a `uint32_t`, so `i++` is `(i + 1) % 2 ^ 32`. -/
def chunk_loop (num_chunks : Nat) (hn : num_chunks < 2 ^ 32) (i : Nat) : List Op :=
  if h : i < num_chunks then
    chunk_body ++ chunk_loop num_chunks hn ((i + 1) % 2 ^ 32)
  else
    []
termination_by num_chunks - i
decreasing_by
  have h1 : (i + 1) % 2 ^ 32 = i + 1 := Nat.mod_eq_of_lt (by omega)
  rw [h1]
  omega

/-- Lines 6-48: the kernel entry point, as the sequence of API calls it issues for the given
runtime-argument words.  `data_size / chunk_size` is a `uint32_t` division, undefined when
`chunk_size` is zero. -/
def MAIN (args : List Nat) : Option (List Op) :=
  match get_arg_val args 0, get_arg_val args 1 with
  | some data_size, some chunk_size =>
    if chunk_size = 0 then
      none
    else
      let num_chunks := (data_size / chunk_size) % 2 ^ 32
      some ([Op.init_sfpu cb_in0 cb_out0, Op.add_int_tile_init]
        ++ chunk_loop num_chunks (Nat.mod_lt _ (by decide)) 0)
  | _, _ => none

/-! ### Effect of the API calls on one Tensix core -/

/-- A page of a circular buffer: the 32-bit words of one chunk. -/
abbrev Page := List Nat

/-- The part of a core's state the kernel's calls act on.
`cb` holds, per circular buffer, the pages that have been pushed and not yet popped, front
first; for the kernel's input buffer this is the stream of pages its producer delivers, for
its output buffer the stream of pages handed to its consumer.  `wr` holds the tiles packed
into the reserved back of a buffer and not yet pushed.  `dst` is the dst register file. -/
structure Core where
  cb : CBIndex → List Page
  wr : CBIndex → List Page
  dst : Nat → Page

/-- Effect of one API call; `none` when the call can never return (a wait on a buffer whose
producer delivers no further page) or reads a page that is not there. -/
def exec_op (s : Core) : Op → Option Core
  | Op.init_sfpu _ _ => some s
  | Op.add_int_tile_init => some s
  | Op.cb_wait_front cb n =>
    if n ≤ (s.cb cb).length then some s else none
  | Op.tile_regs_acquire => some s
  | Op.copy_tile cb in_tile_index dst_tile_index =>
    match (s.cb cb).get? in_tile_index with
    | some p => some { s with dst := Function.update s.dst dst_tile_index p }
    | none => none
  | Op.tile_regs_commit => some s
  | Op.cb_pop_front cb n =>
    if n ≤ (s.cb cb).length then
      some { s with cb := Function.update s.cb cb ((s.cb cb).drop n) }
    else none
  | Op.cb_reserve_back _ _ => some s
  | Op.tile_regs_wait => some s
  | Op.pack_tile dst_index cb =>
    some { s with wr := Function.update s.wr cb (s.wr cb ++ [s.dst dst_index]) }
  | Op.tile_regs_release => some s
  | Op.cb_push_back cb n =>
    if n ≤ (s.wr cb).length then
      some { s with
        cb := Function.update s.cb cb (s.cb cb ++ (s.wr cb).take n)
        wr := Function.update s.wr cb ((s.wr cb).drop n) }
    else none

/-- Runs a sequence of API calls from state `s`. -/
def exec_ops (s : Core) (ops : List Op) : Option Core :=
  ops.foldlM exec_op s

/-- A core at kernel start: input buffer `c_0` is fed the pages `input`, the other buffers
and the registers are empty. -/
def initial_core (input : List Page) : Core where
  cb := fun c => if c = cb_in0 then input else []
  wr := fun _ => []
  dst := fun _ => []

/-- Runs the kernel with runtime arguments `args` on a core whose input buffer `c_0` is fed
the pages `input`; returns the pages pushed to the output buffer `c_1`. -/
def run_kernel (args : List Nat) (input : List Page) : Option (List Page) :=
  match MAIN args with
  | some ops => (exec_ops (initial_core input) ops).map (fun s => s.cb cb_out0)
  | none => none

/-- Runs a sequence of API calls from state `s` as far as it gets: up to the first call
that never returns, or to the end. -/
def exec_until_blocked (s : Core) : List Op → Core
  | [] => s
  | op :: rest =>
    match exec_op s op with
    | some t => exec_until_blocked t rest
    | none => s

/-- The pages the kernel has pushed to its output buffer `c_1` when it returns or blocks for
good, for runtime arguments `args` and input pages `input` on `c_0`. -/
def pushed_pages (args : List Nat) (input : List Page) : Option (List Page) :=
  match MAIN args with
  | some ops => some ((exec_until_blocked (initial_core input) ops).cb cb_out0)
  | none => none

/-! ### Circular buffers as bounded queues shared with the data-movement kernels

The reader kernel is the producer of `c_0` and the writer kernel the consumer of `c_1`; both
run concurrently with the compute kernel.  A configuration records the calls the compute
kernel has still to issue and the number of ready pages in each circular buffer; a schedule
says which of the three kernels moves next. -/

/-- The three kernels of the program. -/
inductive Actor where
  | kernel
  | reader
  | writer
  deriving DecidableEq, Repr

/-- Configuration of the running program as far as the circular buffers are concerned. -/
structure Config where
  pending : List Op
  ready : CBIndex → Nat

/-- Modelled from the spec: `kernels/dataflow/read_kernel.cpp` is not among the sources.
The inbound stage is the only producer of its queue, here `c_0`; one move reserves a page,
which blocks until a page is free, and commits it. -/
def reader_move (capacity : CBIndex → Nat) (c : Config) : Option Config :=
  if c.ready CBIndex.c_0 + 1 ≤ capacity CBIndex.c_0 then
    some { c with ready := Function.update c.ready CBIndex.c_0 (c.ready CBIndex.c_0 + 1) }
  else none

/-- Modelled from the spec: `kernels/dataflow/write_kernel.cpp` is not among the sources.
The outbound stage is the only consumer of its queue, here `c_1`; one move waits for a ready
page, which blocks until one is there, and releases it. -/
def writer_move (c : Config) : Option Config :=
  if 1 ≤ c.ready CBIndex.c_1 then
    some { c with ready := Function.update c.ready CBIndex.c_1 (c.ready CBIndex.c_1 - 1) }
  else none

/-- One move of `actor` with circular buffers of `capacity` pages; `none` when that kernel
cannot move in this configuration (it is blocked in `cb_wait_front` or `cb_reserve_back`, or
the compute kernel has returned).
For the compute kernel a move is its next call: `cb_reserve_back` returns once the requested
pages are free, `cb_wait_front` once the requested pages are ready; `cb_push_back` and
`cb_pop_front` only move the page counters. -/
def step (capacity : CBIndex → Nat) (c : Config) : Actor → Option Config
  | Actor.reader => reader_move capacity c
  | Actor.writer => writer_move c
  | Actor.kernel =>
    match c.pending with
    | [] => none
    | Op.cb_wait_front cb n :: rest =>
      if n ≤ c.ready cb then some { c with pending := rest } else none
    | Op.cb_pop_front cb n :: rest =>
      some { pending := rest, ready := Function.update c.ready cb (c.ready cb - n) }
    | Op.cb_reserve_back cb n :: rest =>
      if c.ready cb + n ≤ capacity cb then some { c with pending := rest } else none
    | Op.cb_push_back cb n :: rest =>
      some { pending := rest, ready := Function.update c.ready cb (c.ready cb + n) }
    | _ :: rest => some { c with pending := rest }

/-- Runs a schedule; `none` when the schedule asks a blocked kernel to move. -/
def run_schedule (capacity : CBIndex → Nat) (c : Config) (schedule : List Actor) :
    Option Config :=
  schedule.foldlM (step capacity) c

/-- How the compute kernel stands with respect to its two queues: whether it has waited for
an input page it has not yet popped, and whether it has reserved an output page it has not
yet pushed. -/
structure Pairing where
  waited : Bool
  reserved : Bool
  deriving DecidableEq, Repr

/-- Follows one call of the kernel; `none` when the call breaks the pairing discipline
(a pop without a preceding wait, a push without a preceding reserve, a second wait or
reserve, a page count other than one, or a queue call on another buffer). -/
def pairing_step (q : Pairing) : Op → Option Pairing
  | Op.cb_wait_front cb n =>
    if cb = cb_in0 ∧ n = 1 ∧ q.waited = false then some { q with waited := true } else none
  | Op.cb_pop_front cb n =>
    if cb = cb_in0 ∧ n = 1 ∧ q.waited = true then some { q with waited := false } else none
  | Op.cb_reserve_back cb n =>
    if cb = cb_out0 ∧ n = 1 ∧ q.reserved = false then some { q with reserved := true } else none
  | Op.cb_push_back cb n =>
    if cb = cb_out0 ∧ n = 1 ∧ q.reserved = true then some { q with reserved := false } else none
  | _ => some q

/-- The queue calls of a call sequence that act on circular buffer `cb`. -/
def queue_ops (cb : CBIndex) (ops : List Op) : List Op :=
  ops.filter (fun op =>
    match op with
    | Op.cb_wait_front c _ => decide (c = cb)
    | Op.cb_pop_front c _ => decide (c = cb)
    | Op.cb_reserve_back c _ => decide (c = cb)
    | Op.cb_push_back c _ => decide (c = cb)
    | _ => false)

/-- The dst-register calls of a call sequence (synchronisation, copy and pack). -/
def reg_ops (ops : List Op) : List Op :=
  ops.filter (fun op =>
    match op with
    | Op.tile_regs_acquire => true
    | Op.copy_tile _ _ _ => true
    | Op.tile_regs_commit => true
    | Op.tile_regs_wait => true
    | Op.pack_tile _ _ => true
    | Op.tile_regs_release => true
    | _ => false)

/-- The invariant of a running program with single-slot buffers: the calls the kernel has
still to issue respect the pairing discipline from some pairing state, neither buffer holds
more than one ready page, and the output buffer is empty while the kernel holds a reserved
page. -/
def slot_invariant (c : Config) : Prop :=
  ∃ q : Pairing, (c.pending.foldlM pairing_step q).isSome = true ∧
    c.ready CBIndex.c_0 ≤ 1 ∧ c.ready CBIndex.c_1 ≤ 1 ∧
    (q.reserved = true → c.ready CBIndex.c_1 = 0)


/-- Number of pages a call sequence pops from circular buffer `cb`. -/
def pages_popped (cb : CBIndex) (ops : List Op) : Nat :=
  (ops.map (fun op =>
    match op with
    | Op.cb_pop_front c n => if c = cb then n else 0
    | _ => 0)).sum

/-- Number of pages a call sequence pushes to circular buffer `cb`. -/
def pages_pushed (cb : CBIndex) (ops : List Op) : Nat :=
  (ops.map (fun op =>
    match op with
    | Op.cb_push_back c n => if c = cb then n else 0
    | _ => 0)).sum

/-! ## Element types of the host drivers -/

/-- The operations the hosts use on their element type: value initialisation (`T()`),
conversion from `int`, `operator+` and `operator!=`. -/
structure Elem (α : Type) where
  zero : α
  of_int : Int → α
  add : α → α → α
  ne : α → α → Bool

/-- `uint32_t`: values below `2 ^ 32`, arithmetic modulo `2 ^ 32`. -/
def u32 : Elem Nat where
  zero := 0
  of_int := fun i => (i % 2 ^ 32).toNat
  add := fun a b => (a + b) % 2 ^ 32
  ne := fun a b => a != b

/-- Number of binary digits of `n`, with `fuel` bounding the recursion. -/
def bit_length_aux : Nat → Nat → Nat
  | 0, _ => 0
  | fuel + 1, n => if n = 0 then 0 else bit_length_aux fuel (n / 2) + 1

/-- Number of binary digits of `n` (`0` for `0`). -/
def bit_length (n : Nat) : Nat := bit_length_aux n n

/-- IEEE-754 binary32 values (`float`).  `fin neg m e` is `(-1)^neg * m * 2^e`; the value
comparisons below do not depend on the chosen representative. -/
inductive F32 where
  | nan
  | inf (neg : Bool)
  | fin (neg : Bool) (m : Nat) (e : Int)
  deriving DecidableEq, Repr

namespace F32

/-- Rounds `(-1)^neg * m * 2^e` to binary32, to nearest with ties to even: keeps the value
when `m` has at most 24 binary digits, otherwise drops the excess low digits; a result of
magnitude `2^128` or more becomes an infinity.  Used with `e ≥ -149` only: integers and sums
of binary32 values are multiples of `2^-149`. -/
def round (neg : Bool) (m : Nat) (e : Int) : F32 :=
  let b := bit_length m
  if b ≤ 24 then
    if (b : Int) + e > 128 then inf neg else fin neg m e
  else
    let s := b - 24
    let q := m / 2 ^ s
    let r := m % 2 ^ s
    let half := 2 ^ (s - 1)
    let q1 := if half < r ∨ (r = half ∧ q % 2 = 1) then q + 1 else q
    if (bit_length q1 : Int) + (e + s) > 128 then inf neg else fin neg q1 (e + s)

/-- Conversion `float(i)` of an `int`. -/
def of_int (i : Int) : F32 := round (decide (i < 0)) i.natAbs 0

/-- `operator+` on `float`. -/
def add : F32 → F32 → F32
  | nan, _ => nan
  | _, nan => nan
  | inf a, inf b => if a = b then inf a else nan
  | inf a, fin _ _ _ => inf a
  | fin _ _ _, inf b => inf b
  | fin n1 m1 e1, fin n2 m2 e2 =>
    let e := min e1 e2
    let a := m1 * 2 ^ (e1 - e).toNat
    let b := m2 * 2 ^ (e2 - e).toNat
    if n1 = n2 then round n1 (a + b) e
    else if a = b then round false 0 e
    else if b < a then round n1 (a - b) e
    else round n2 (b - a) e

/-- `operator!=` on `float`: true when either side is a NaN or the values differ. -/
def ne : F32 → F32 → Bool
  | nan, _ => true
  | _, nan => true
  | inf a, inf b => a != b
  | inf _, fin _ _ _ => true
  | fin _ _ _, inf _ => true
  | fin n1 m1 e1, fin n2 m2 e2 =>
    let e := min e1 e2
    let a := m1 * 2 ^ (e1 - e).toNat
    let b := m2 * 2 ^ (e2 - e).toNat
    !(a == b && (n1 == n2 || a == 0))

/-- Conversion of a `float` to an unsigned integer type: truncation of a finite
non-negative value (other values have no defined result and are mapped to `0`). -/
def to_nat : F32 → Nat
  | fin false m e => if 0 ≤ e then m * 2 ^ e.toNat else m / 2 ^ (-e).toNat
  | _ => 0

end F32

/-- `float`. -/
def f32 : Elem F32 where
  zero := F32.fin false 0 0
  of_int := F32.of_int
  add := F32.add
  ne := F32.ne

/-! ## Host drivers: `three.cpp` and `four-fp.cpp` -/

/-- `BufferType` of an `InterleavedBufferConfig`. -/
inductive BufferType where
  | DRAM
  | L1
  deriving DecidableEq, Repr

/-- `tt::DataFormat` of a circular buffer. -/
inductive DataFormat where
  | UInt32
  | Float32
  deriving DecidableEq, Repr

/-- Kernel configuration passed to `CreateKernel`, as far as the drivers set it. -/
inductive KernelConfig where
  | DataMovement_RISCV_0
  | DataMovement_RISCV_1
  | Compute
  deriving DecidableEq, Repr

/-- Library and C calls a host driver makes, in the order it makes them.
Buffers and kernels are named by their creation order (`0` is the first created). -/
inductive HostCall (α : Type) where
  | CreateDevice (device_id : Nat)
  | CreateProgram
  | CreateBuffer (size page_size : Nat) (buffer_type : BufferType)
  | CreateCircularBuffer (total_size : Nat) (index : CBIndex) (format : DataFormat)
      (page_size : Nat)
  | WriteToBuffer (buffer : Nat) (data : List α)
  | CreateKernel (file_name : String) (config : KernelConfig)
  | SetRuntimeArgs (kernel : Nat) (args : List Nat)
  | LaunchProgram
  | ReadFromBuffer (buffer : Nat)
  | CloseDevice
  | printf (format : String) (args : List Int)
  deriving DecidableEq, Repr

/-- What the device hands back to a host driver: the address of each buffer
(`buffer->address()`) and the contents `ReadFromBuffer` stores into `result_data`. -/
structure HostEnv (α : Type) where
  address : Nat → Nat
  result_data : List α

/-- The input initialisation loop of both drivers:
`for (int i=0;i<DATA_SIZE;i++) { src0_data[i]=i; src1_data[i]=DATA_SIZE-i; }`
on vectors created with `DATA_SIZE` value-initialised elements. -/
def init_data {α : Type} (el : Elem α) (DATA_SIZE : Nat) : List α × List α :=
  (List.range DATA_SIZE).foldl
    (fun (src : List α × List α) (i : Nat) =>
      (src.1.set i (el.of_int (i : Int)), src.2.set i (el.of_int ((DATA_SIZE : Int) - (i : Int)))))
    (List.replicate DATA_SIZE el.zero, List.replicate DATA_SIZE el.zero)

/-- The result check loop of both drivers:
`for (int i=0;i<DATA_SIZE;i++) { if (result_data[i] != src0_data[i] + src1_data[i]) number_failures++; }`
starting from `number_failures=0`. -/
def check_loop {α : Type} (el : Elem α) (DATA_SIZE : Nat) (result_data src0_data src1_data : List α) :
    Nat :=
  (List.range DATA_SIZE).foldl
    (fun (number_failures : Nat) (i : Nat) =>
      if el.ne (result_data.getD i el.zero)
          (el.add (src0_data.getD i el.zero) (src1_data.getD i el.zero)) then
        number_failures + 1
      else number_failures)
    0

/-- The final report of both drivers: the `printf` chosen by `number_failures==0`. -/
def report {α : Type} (number_failures DATA_SIZE : Nat) : HostCall α :=
  if number_failures = 0 then
    HostCall.printf "Completed successfully on the device, with %d elements\n" [(DATA_SIZE : Int)]
  else
    HostCall.printf "Failure on the device, %d fails with %d elements\n"
      [(number_failures : Int), (DATA_SIZE : Int)]

/-- The `main` of `three.cpp`, with the macros `DATA_SIZE` and `CHUNK_SIZE` as parameters.
Buffers in creation order: `0` src0, `1` src1, `2` dst (DRAM), `3` and `4` the two L1 buffers;
kernels: `0` reader, `1` writer. -/
def three_main (DATA_SIZE CHUNK_SIZE : Nat) (env : HostEnv Nat) : List (HostCall Nat) :=
  let ddr_tile_size := 4 * DATA_SIZE
  let l1_tile_size := 4 * CHUNK_SIZE
  let src := init_data u32 DATA_SIZE
  let number_failures := check_loop u32 DATA_SIZE env.result_data src.1 src.2
  [ HostCall.CreateDevice 0,
    HostCall.CreateProgram,
    HostCall.CreateBuffer ddr_tile_size ddr_tile_size BufferType.DRAM,
    HostCall.CreateBuffer ddr_tile_size ddr_tile_size BufferType.DRAM,
    HostCall.CreateBuffer ddr_tile_size ddr_tile_size BufferType.DRAM,
    HostCall.CreateBuffer l1_tile_size l1_tile_size BufferType.L1,
    HostCall.CreateBuffer l1_tile_size l1_tile_size BufferType.L1,
    HostCall.CreateCircularBuffer l1_tile_size CBIndex.c_0 DataFormat.UInt32 l1_tile_size,
    HostCall.WriteToBuffer 0 src.1,
    HostCall.WriteToBuffer 1 src.2,
    HostCall.CreateKernel "kernels/dataflow/read_kernel.cpp" KernelConfig.DataMovement_RISCV_0,
    HostCall.SetRuntimeArgs 0
      [env.address 0, env.address 1, env.address 3, env.address 4, DATA_SIZE, CHUNK_SIZE],
    HostCall.CreateKernel "kernels/dataflow/write_kernel.cpp" KernelConfig.DataMovement_RISCV_1,
    HostCall.SetRuntimeArgs 1 [env.address 2, DATA_SIZE, CHUNK_SIZE],
    HostCall.LaunchProgram,
    HostCall.ReadFromBuffer 2,
    HostCall.CloseDevice,
    report number_failures DATA_SIZE ]

/-- The `main` of `four-fp.cpp`, with the macros `DATA_SIZE` and `CHUNK_SIZE` as parameters.
Buffers in creation order: `0` src0, `1` src1, `2` dst; kernels: `0` reader, `1` writer,
`2` compute.  The DRAM sizes are `constexpr float` values converted back to an integer. -/
def four_fp_main (DATA_SIZE CHUNK_SIZE : Nat) (env : HostEnv F32) : List (HostCall F32) :=
  let in_ddr_tile_size := F32.to_nat (F32.of_int (4 * (DATA_SIZE : Int)))
  let out_ddr_tile_size := F32.to_nat (F32.of_int (4 * (DATA_SIZE : Int)))
  let l1_tile_size := 4 * CHUNK_SIZE
  let src := init_data f32 DATA_SIZE
  let number_failures := check_loop f32 DATA_SIZE env.result_data src.1 src.2
  [ HostCall.CreateDevice 0,
    HostCall.CreateProgram,
    HostCall.CreateBuffer in_ddr_tile_size in_ddr_tile_size BufferType.DRAM,
    HostCall.CreateBuffer in_ddr_tile_size in_ddr_tile_size BufferType.DRAM,
    HostCall.CreateBuffer out_ddr_tile_size out_ddr_tile_size BufferType.DRAM,
    HostCall.CreateCircularBuffer l1_tile_size CBIndex.c_0 DataFormat.Float32 l1_tile_size,
    HostCall.CreateCircularBuffer l1_tile_size CBIndex.c_1 DataFormat.Float32 l1_tile_size,
    HostCall.CreateCircularBuffer l1_tile_size CBIndex.c_2 DataFormat.Float32 l1_tile_size,
    HostCall.WriteToBuffer 0 src.1,
    HostCall.WriteToBuffer 1 src.2,
    HostCall.CreateKernel "kernels/dataflow/read_kernel.cpp" KernelConfig.DataMovement_RISCV_0,
    HostCall.SetRuntimeArgs 0 [env.address 0, env.address 1, DATA_SIZE, CHUNK_SIZE],
    HostCall.CreateKernel "kernels/dataflow/write_kernel.cpp" KernelConfig.DataMovement_RISCV_1,
    HostCall.SetRuntimeArgs 1 [env.address 2, DATA_SIZE, CHUNK_SIZE],
    HostCall.CreateKernel "kernels/compute/compute_kernel.cpp" KernelConfig.Compute,
    HostCall.SetRuntimeArgs 2 [DATA_SIZE, CHUNK_SIZE],
    HostCall.LaunchProgram,
    HostCall.ReadFromBuffer 2,
    HostCall.CloseDevice,
    report number_failures DATA_SIZE ]

/-- The runtime-argument lists bound to kernel `kernel` by a sequence of host calls. -/
def runtime_args {α : Type} (calls : List (HostCall α)) (kernel : Nat) : List (List Nat) :=
  calls.filterMap (fun c =>
    match c with
    | HostCall.SetRuntimeArgs k args => if k = kernel then some args else none
    | _ => none)

/-- The page capacity of circular buffer `cb` as configured by a sequence of host calls:
total size divided by page size of each `CreateCircularBuffer` for that index. -/
def cb_capacity {α : Type} (calls : List (HostCall α)) (cb : CBIndex) : List Nat :=
  calls.filterMap (fun c =>
    match c with
    | HostCall.CreateCircularBuffer total_size index _ page_size =>
      if index = cb then some (total_size / page_size) else none
    | _ => none)

/-- The kernel source files a sequence of host calls creates kernels from, in creation
order (position `k` names kernel `k`). -/
def created_kernels {α : Type} (calls : List (HostCall α)) : List String :=
  calls.filterMap (fun c =>
    match c with
    | HostCall.CreateKernel file_name _ => some file_name
    | _ => none)

/-- Whether a host call acquires a device resource: the device handle, a DRAM or L1 buffer,
a circular buffer or a kernel. -/
def allocates {α : Type} : HostCall α → Bool
  | HostCall.CreateDevice _ => true
  | HostCall.CreateBuffer _ _ _ => true
  | HostCall.CreateCircularBuffer _ _ _ _ => true
  | HostCall.CreateKernel _ _ => true
  | _ => false

/-! ## Basic facts about the kernel -/

theorem chunk_loop_eq (num_chunks : Nat) (hn : num_chunks < 2 ^ 32) (i : Nat) :
    chunk_loop num_chunks hn i = (List.replicate (num_chunks - i) chunk_body).flatten := by
  generalize hk : num_chunks - i = k
  induction k generalizing i with
  | zero =>
    rw [chunk_loop]
    have : ¬ i < num_chunks := by omega
    simp [this]
  | succ k ih =>
    rw [chunk_loop]
    have hi : i < num_chunks := by omega
    have h1 : (i + 1) % 2 ^ 32 = i + 1 := Nat.mod_eq_of_lt (by omega)
    simp only [hi, dite_true, h1]
    rw [ih (i + 1) (by omega)]
    simp [List.replicate_succ]

theorem MAIN_eq (N K : Nat) (hN : N < 2 ^ 32) (hK : K < 2 ^ 32) (hK0 : 0 < K) :
    MAIN [N, K] = some ([Op.init_sfpu cb_in0 cb_out0, Op.add_int_tile_init]
      ++ (List.replicate (N / K) chunk_body).flatten) := by
  have h1 : N % 2 ^ 32 = N := Nat.mod_eq_of_lt hN
  have h2 : K % 2 ^ 32 = K := Nat.mod_eq_of_lt hK
  have h3 : (N / K) % 2 ^ 32 = N / K :=
    Nat.mod_eq_of_lt (lt_of_le_of_lt (Nat.div_le_self N K) hN)
  have hK' : K ≠ 0 := by omega
  simp only [MAIN, get_arg_val, List.get?, Option.map_some', h1, h2, h3, hK', if_false,
    chunk_loop_eq, Nat.sub_zero]


theorem exec_ops_append (s : Core) (a b : List Op) :
    exec_ops s (a ++ b) = (exec_ops s a).bind (fun t => exec_ops t b) := by
  simp [exec_ops, List.foldlM_append]

theorem exec_chunk_body (s : Core) (p : Page) (rest : List Page)
    (h0 : s.cb cb_in0 = p :: rest) (hw : s.wr cb_out0 = []) :
    ∃ t, exec_ops s chunk_body = some t ∧ t.dst 2 = p ∧ t.cb cb_in0 = rest ∧
      t.cb cb_out0 = s.cb cb_out0 ++ [p] ∧ t.wr cb_out0 = [] := by
  have hne : cb_out0 ≠ cb_in0 := by decide
  have hne2 : cb_in0 ≠ cb_out0 := by decide
  simp [exec_ops, chunk_body, exec_op, h0, hw, Function.update, hne, hne2]

theorem exec_chunk_body_blocked (s : Core) (h0 : s.cb cb_in0 = []) :
    exec_ops s chunk_body = none := by
  simp [exec_ops, chunk_body, exec_op, h0]

theorem exec_chunks (n : Nat) : ∀ (s : Core), n ≤ (s.cb cb_in0).length → s.wr cb_out0 = [] →
    ∃ t, exec_ops s (List.replicate n chunk_body).flatten = some t ∧
      t.cb cb_in0 = (s.cb cb_in0).drop n ∧
      t.cb cb_out0 = s.cb cb_out0 ++ (s.cb cb_in0).take n ∧ t.wr cb_out0 = [] := by
  induction n with
  | zero =>
    intro s _ hw
    exact ⟨s, by simp [exec_ops], by simp, by simp, hw⟩
  | succ n ih =>
    intro s hlen hw
    match h0 : s.cb cb_in0 with
    | [] => rw [h0] at hlen; simp at hlen
    | p :: rest =>
      obtain ⟨t, ht, _, htin, htout, htw⟩ := exec_chunk_body s p rest h0 hw
      have hlen' : n ≤ (t.cb cb_in0).length := by
        rw [htin]; rw [h0] at hlen; simpa using hlen
      obtain ⟨u, hu, huin, huout, huw⟩ := ih t hlen' htw
      refine ⟨u, ?_, ?_, ?_, huw⟩
      · rw [List.replicate_succ, List.flatten_cons, exec_ops_append, ht]
        simpa using hu
      · rw [huin, htin]; simp
      · rw [huout, htout, htin]; simp

theorem exec_chunks_blocked (n : Nat) : ∀ (s : Core), (s.cb cb_in0).length < n →
    s.wr cb_out0 = [] → exec_ops s (List.replicate n chunk_body).flatten = none := by
  induction n with
  | zero => intro s h; simp at h
  | succ n ih =>
    intro s hlen hw
    rw [List.replicate_succ, List.flatten_cons, exec_ops_append]
    match h0 : s.cb cb_in0 with
    | [] => rw [exec_chunk_body_blocked s h0]; rfl
    | p :: rest =>
      obtain ⟨t, ht, _, htin, _, htw⟩ := exec_chunk_body s p rest h0 hw
      rw [ht]
      have hlen' : (t.cb cb_in0).length < n := by
        rw [htin]; rw [h0] at hlen; simpa using hlen
      simpa using ih t hlen' htw

theorem run_kernel_eq (N K : Nat) (hN : N < 2 ^ 32) (hK : K < 2 ^ 32) (hK0 : 0 < K)
    (input : List Page) :
    run_kernel [N, K] input = if N / K ≤ input.length then some (input.take (N / K)) else none := by
  unfold run_kernel
  rw [MAIN_eq N K hN hK hK0]
  simp only []
  rw [exec_ops_append]
  have hin : (initial_core input).cb cb_in0 = input := by simp [initial_core]
  have hout : (initial_core input).cb cb_out0 = [] := rfl
  have hwr : (initial_core input).wr cb_out0 = [] := rfl
  have hinit : exec_ops (initial_core input) [Op.init_sfpu cb_in0 cb_out0, Op.add_int_tile_init]
      = some (initial_core input) := rfl
  rw [hinit]
  simp only [Option.some_bind]
  by_cases h : N / K ≤ input.length
  · obtain ⟨t, ht, _, htout, _⟩ := exec_chunks (N / K) (initial_core input)
      (by rw [hin]; exact h) hwr
    rw [ht, if_pos h]
    simp [htout, hout, hin]
  · rw [exec_chunks_blocked (N / K) (initial_core input) (by rw [hin]; omega) hwr, if_neg h]
    rfl


theorem flatten_replicate_length (n : Nat) (b : List Op) :
    (List.replicate n b).flatten.length = n * b.length := by
  induction n with
  | zero => simp
  | succ n ih => rw [List.replicate_succ, List.flatten_cons, List.length_append, ih]; ring

theorem flatten_replicate_split (j n : Nat) (b : List Op) (h : j ≤ n) :
    (List.replicate n b).flatten
      = (List.replicate j b).flatten ++ (List.replicate (n - j) b).flatten := by
  have hn : n = j + (n - j) := by omega
  conv_lhs => rw [hn, List.replicate_add, List.flatten_append]

theorem flatten_replicate_block (j n : Nat) (b : List Op) (h : j < n) :
    (((List.replicate n b).flatten).drop (b.length * j)).take b.length = b := by
  rw [flatten_replicate_split j n b (le_of_lt h)]
  have h1 : n - j = (n - j - 1) + 1 := by omega
  rw [h1, List.replicate_succ, List.flatten_cons]
  have hl : b.length * j = (List.replicate j b).flatten.length := by
    rw [flatten_replicate_length]; ring
  rw [hl, List.drop_left]
  simp

theorem flatten_replicate_take (j n : Nat) (b : List Op) (h : j ≤ n) :
    ((List.replicate n b).flatten).take (b.length * j) = (List.replicate j b).flatten := by
  rw [flatten_replicate_split j n b h]
  have hl : b.length * j = (List.replicate j b).flatten.length := by
    rw [flatten_replicate_length]; ring
  rw [hl, List.take_left]

theorem exec_until_blocked_append (s t : Core) (a b : List Op)
    (h : exec_ops s a = some t) :
    exec_until_blocked s (a ++ b) = exec_until_blocked t b := by
  induction a generalizing s with
  | nil =>
    simp only [exec_ops, List.foldlM_nil] at h
    cases h
    rfl
  | cons op rest ih =>
    simp only [exec_ops, List.foldlM_cons] at h
    cases hop : exec_op s op with
    | none => rw [hop] at h; simp at h
    | some u =>
      rw [hop] at h
      simp only [List.cons_append, exec_until_blocked, hop]
      exact ih u (by simpa [exec_ops] using h)

theorem exec_until_blocked_done (s t : Core) (a : List Op) (h : exec_ops s a = some t) :
    exec_until_blocked s a = t := by
  have := exec_until_blocked_append s t a [] h
  simpa [exec_until_blocked] using this

theorem pushed_pages_eq (N K : Nat) (hN : N < 2 ^ 32) (hK : K < 2 ^ 32) (hK0 : 0 < K)
    (input : List Page) :
    pushed_pages [N, K] input = some (input.take (N / K)) := by
  unfold pushed_pages
  rw [MAIN_eq N K hN hK hK0]
  simp only [Option.some.injEq]
  have hin : (initial_core input).cb cb_in0 = input := by simp [initial_core]
  have hout : (initial_core input).cb cb_out0 = [] := rfl
  have hwr : (initial_core input).wr cb_out0 = [] := rfl
  have hinit : exec_ops (initial_core input) [Op.init_sfpu cb_in0 cb_out0, Op.add_int_tile_init]
      = some (initial_core input) := rfl
  rw [exec_until_blocked_append _ _ _ _ hinit]
  by_cases h : N / K ≤ input.length
  · obtain ⟨t, ht, _, htout, _⟩ := exec_chunks (N / K) (initial_core input)
      (by rw [hin]; exact h) hwr
    rw [exec_until_blocked_done _ _ _ ht, htout, hout, hin]
    rfl
  · have hlt : input.length < N / K := by omega
    rw [flatten_replicate_split input.length (N / K) chunk_body (le_of_lt hlt)]
    obtain ⟨t, ht, htin, htout, _⟩ := exec_chunks input.length (initial_core input)
      (by rw [hin]) hwr
    rw [exec_until_blocked_append _ _ _ _ ht]
    have h1 : N / K - input.length = (N / K - input.length - 1) + 1 := by omega
    rw [h1, List.replicate_succ, List.flatten_cons]
    have hempty : t.cb cb_in0 = [] := by rw [htin, hin]; simp
    have hblock : exec_op t (Op.cb_wait_front cb_in0 1) = none := by
      simp [exec_op, hempty]
    have : exec_until_blocked t (chunk_body
        ++ (List.replicate (N / K - input.length - 1) chunk_body).flatten) = t := by
      simp only [chunk_body, List.cons_append, exec_until_blocked, hblock]
    rw [this, htout, hout, hin, List.take_length, List.take_of_length_le (le_of_lt hlt)]
    rfl

theorem count_flatten_replicate (n : Nat) (b : List Op) (x : Op) :
    (List.replicate n b).flatten.count x = n * b.count x := by
  induction n with
  | zero => simp
  | succ n ih => rw [List.replicate_succ, List.flatten_cons, List.count_append, ih]; ring

theorem pages_popped_append (cb : CBIndex) (a b : List Op) :
    pages_popped cb (a ++ b) = pages_popped cb a + pages_popped cb b := by
  simp [pages_popped]

theorem pages_pushed_append (cb : CBIndex) (a b : List Op) :
    pages_pushed cb (a ++ b) = pages_pushed cb a + pages_pushed cb b := by
  simp [pages_pushed]

theorem pages_popped_chunks (cb : CBIndex) (n : Nat) (b : List Op) :
    pages_popped cb (List.replicate n b).flatten = n * pages_popped cb b := by
  induction n with
  | zero => simp [pages_popped]
  | succ n ih => rw [List.replicate_succ, List.flatten_cons, pages_popped_append, ih]; ring

theorem pages_pushed_chunks (cb : CBIndex) (n : Nat) (b : List Op) :
    pages_pushed cb (List.replicate n b).flatten = n * pages_pushed cb b := by
  induction n with
  | zero => simp [pages_pushed]
  | succ n ih => rw [List.replicate_succ, List.flatten_cons, pages_pushed_append, ih]; ring

theorem length_flatten_pages (K : Nat) (pages : List Page) (h : ∀ p ∈ pages, p.length = K) :
    pages.flatten.length = K * pages.length := by
  induction pages with
  | nil => simp
  | cons p ps ih =>
    have hp : p.length = K := h p (List.mem_cons_self p ps)
    have hps : ∀ q ∈ ps, q.length = K := fun q hq => h q (List.mem_cons_of_mem p hq)
    rw [List.flatten_cons, List.length_append, ih hps, hp, List.length_cons]; ring


/-! ## The compute kernel: what it moves and how often -/

/-- C1, as stated, fails: with `N = K = 1`, operand `A = [1]` in the kernel's input buffer and
operand `B = [1]`, the kernel pushes the page `[1]`, not the elementwise sum `[2]`. -/
theorem C1_counterexample :
    run_kernel [1, 1] [[1]] = some [[1]] ∧
    (run_kernel [1, 1] [[1]]).map List.flatten ≠ some (List.zipWith u32.add [1] [1]) := by
  rw [run_kernel_eq 1 1 (by decide) (by decide) (by decide)]
  decide

/-- C1 (amended): for 32-bit `N` and `K > 0` and an input stream of at least `N / K` pages, the
compute kernel pushes exactly the first `N / K` input pages, unchanged and in order; when `K`
divides `N` and the input is `N / K` pages of `K` elements holding the array `A`, the pushed
pages hold an array `C` of `N` elements with `C[i] = A[i]` for every `i < N`. -/
theorem C1_kernel_copies_input_pages (N K : Nat) (hN : N < 2 ^ 32) (hK : K < 2 ^ 32)
    (hK0 : 0 < K) (input : List Page) (hlen : N / K ≤ input.length) :
    run_kernel [N, K] input = some (input.take (N / K)) ∧
    (K ∣ N → input.length = N / K → (∀ p ∈ input, p.length = K) →
      ∃ C, (run_kernel [N, K] input).map List.flatten = some C ∧ C.length = N ∧
        ∀ i < N, C[i]? = input.flatten[i]?) := by
  have hrun : run_kernel [N, K] input = some (input.take (N / K)) := by
    rw [run_kernel_eq N K hN hK hK0, if_pos hlen]
  refine ⟨hrun, ?_⟩
  intro hdvd hl hp
  refine ⟨input.flatten, ?_, ?_, fun i _ => rfl⟩
  · rw [hrun, ← hl, List.take_length]; rfl
  · rw [length_flatten_pages K input hp, hl]
    exact Nat.mul_div_cancel' hdvd

theorem C1_kernel_copies_input_pages_witness :
    (256 : Nat) < 2 ^ 32 ∧ (64 : Nat) < 2 ^ 32 ∧ 0 < 64 ∧
    256 / 64 ≤ (List.replicate 4 (List.replicate 64 7)).length ∧
    (run_kernel [256, 64] (List.replicate 4 (List.replicate 64 7))
        = some ((List.replicate 4 (List.replicate 64 7)).take (256 / 64)) ∧
      (64 ∣ 256 → (List.replicate 4 (List.replicate 64 7)).length = 256 / 64 →
        (∀ p ∈ List.replicate 4 (List.replicate 64 7), p.length = 64) →
        ∃ C, (run_kernel [256, 64] (List.replicate 4 (List.replicate 64 7))).map List.flatten
            = some C ∧ C.length = 256 ∧
          ∀ i < 256, C[i]? = (List.replicate 4 (List.replicate 64 7)).flatten[i]?)) :=
  ⟨by decide, by decide, by decide, by decide,
    C1_kernel_copies_input_pages 256 64 (by decide) (by decide) (by decide)
      (List.replicate 4 (List.replicate 64 7)) (by decide)⟩

/-- C3: for 32-bit `N` and `K > 0` with `K` dividing `N`, the kernel returns after exactly
`N / K` iterations of its loop body; one iteration pops exactly one page from the input buffer
and pushes exactly one page to the output buffer, so the run pops `N / K` pages and pushes
`N / K` pages, `K * (N / K) = N` elements in all; fed `N / K` pages it pushes each of them
once, in order. -/
theorem C3_chunks_cover_data (N K : Nat) (hN : N < 2 ^ 32) (hK : K < 2 ^ 32) (hK0 : 0 < K)
    (hdvd : K ∣ N) :
    ∃ T, MAIN [N, K] = some T ∧
      T = [Op.init_sfpu cb_in0 cb_out0, Op.add_int_tile_init]
        ++ (List.replicate (N / K) chunk_body).flatten ∧
      pages_popped cb_in0 chunk_body = 1 ∧ pages_pushed cb_out0 chunk_body = 1 ∧
      pages_popped cb_in0 T = N / K ∧ pages_pushed cb_out0 T = N / K ∧
      K * (N / K) = N ∧
      ∀ input : List Page, input.length = N / K → run_kernel [N, K] input = some input := by
  refine ⟨_, MAIN_eq N K hN hK hK0, rfl, rfl, rfl, ?_, ?_, Nat.mul_div_cancel' hdvd, ?_⟩
  · rw [pages_popped_append, pages_popped_chunks]
    simp [pages_popped, chunk_body]
  · rw [pages_pushed_append, pages_pushed_chunks]
    simp [pages_pushed, chunk_body]
  · intro input hl
    rw [run_kernel_eq N K hN hK hK0, if_pos (le_of_eq hl.symm), ← hl, List.take_length]

theorem C3_chunks_cover_data_witness :
    (256 : Nat) < 2 ^ 32 ∧ (64 : Nat) < 2 ^ 32 ∧ 0 < 64 ∧ 64 ∣ 256 ∧
    ∃ T, MAIN [256, 64] = some T ∧
      T = [Op.init_sfpu cb_in0 cb_out0, Op.add_int_tile_init]
        ++ (List.replicate (256 / 64) chunk_body).flatten ∧
      pages_popped cb_in0 chunk_body = 1 ∧ pages_pushed cb_out0 chunk_body = 1 ∧
      pages_popped cb_in0 T = 256 / 64 ∧ pages_pushed cb_out0 T = 256 / 64 ∧
      64 * (256 / 64) = 256 ∧
      ∀ input : List Page, input.length = 256 / 64 → run_kernel [256, 64] input = some input :=
  ⟨by decide, by decide, by decide, by decide,
    C3_chunks_cover_data 256 64 (by decide) (by decide) (by decide) (by decide)⟩

/-- C5: for 32-bit `N` and `K > 0` and every sequence of input pages, one loop iteration
moves the front input page into dst segment 2 and pushes the content of that segment; the
pages the kernel pushes are the first `N / K` input pages in input order (all of them when the
kernel returns, which it does exactly when at least `N / K` pages arrive), so the `i`-th pushed
page is the `i`-th popped page whatever the other input pages are; and a page pushed as chunk
`j` of a four-chunk run (`N = 256`, `K = 64`) equals the page pushed for the same data by a
one-chunk run (`N = 64`, `K = 64`). -/
theorem C5_pages_pushed_in_order (N K : Nat) (hN : N < 2 ^ 32) (hK : K < 2 ^ 32) (hK0 : 0 < K)
    (input : List Page) :
    (∀ (s : Core) (p : Page) (rest : List Page), s.cb cb_in0 = p :: rest → s.wr cb_out0 = [] →
      ∃ t, exec_ops s chunk_body = some t ∧ t.dst 2 = p ∧ t.cb cb_in0 = rest ∧
        t.cb cb_out0 = s.cb cb_out0 ++ [t.dst 2]) ∧
    pushed_pages [N, K] input = some (input.take (N / K)) ∧
    (∀ i < N / K, (pushed_pages [N, K] input).bind (fun o => o[i]?) = input[i]?) ∧
    (run_kernel [N, K] input
      = if N / K ≤ input.length then some (input.take (N / K)) else none) ∧
    (∀ (other : List Page) (i : Nat), i < N / K → other[i]? = input[i]? →
      (pushed_pages [N, K] other).bind (fun o => o[i]?)
        = (pushed_pages [N, K] input).bind (fun o => o[i]?)) ∧
    (∀ (p : Page) (four : List Page) (j : Nat), j < 4 → four[j]? = some p →
      (pushed_pages [256, 64] four).bind (fun o => o[j]?)
        = (pushed_pages [64, 64] [p]).bind (fun o => o[0]?)) := by
  refine ⟨?_, pushed_pages_eq N K hN hK hK0 input, ?_, run_kernel_eq N K hN hK hK0 input, ?_, ?_⟩
  · intro s p rest h0 hw
    obtain ⟨t, ht, hd, hin, hout, _⟩ := exec_chunk_body s p rest h0 hw
    exact ⟨t, ht, hd, hin, by rw [hout, hd]⟩
  · intro i hi
    rw [pushed_pages_eq N K hN hK hK0, Option.some_bind, List.getElem?_take_of_lt hi]
  · intro other i hi heq
    rw [pushed_pages_eq N K hN hK hK0, pushed_pages_eq N K hN hK hK0]
    simp only [Option.some_bind]
    rw [List.getElem?_take_of_lt hi, List.getElem?_take_of_lt hi, heq]
  · intro p four j hj hp
    rw [pushed_pages_eq 256 64 (by decide) (by decide) (by decide),
      pushed_pages_eq 64 64 (by decide) (by decide) (by decide)]
    simp only [Option.some_bind]
    rw [List.getElem?_take_of_lt (by simpa using hj), hp]
    rfl

theorem C5_pages_pushed_in_order_witness :
    (256 : Nat) < 2 ^ 32 ∧ (64 : Nat) < 2 ^ 32 ∧ 0 < 64 ∧
    pushed_pages [256, 64] [[1], [2], [3], [4], [5]]
      = some (([[1], [2], [3], [4], [5]] : List Page).take (256 / 64)) ∧
    (∀ i < 256 / 64, (pushed_pages [256, 64] [[1], [2], [3], [4], [5]]).bind (fun o => o[i]?)
      = ([[1], [2], [3], [4], [5]] : List Page)[i]?) :=
  have h := C5_pages_pushed_in_order 256 64 (by decide) (by decide) (by decide)
    [[1], [2], [3], [4], [5]]
  ⟨by decide, by decide, by decide, h.2.1, h.2.2.1⟩

/-- C10: for 32-bit `N` and `K > 0`, whether or not `K` divides `N`, the kernel returns after
exactly `N / K` (rounded down) iterations, popping and pushing that many pages, which is
`K * (N / K) = N - N % K` elements: at most `N`, so the product does not wrap modulo `2 ^ 32`;
when `K` does not divide `N` the last `N % K > 0` elements are not covered and the kernel
still returns normally (fed `N / K` pages it pushes them all); when `K > N` it issues no
queue call at all. -/
theorem C10_floor_chunks (N K : Nat) (hN : N < 2 ^ 32) (hK : K < 2 ^ 32) (hK0 : 0 < K) :
    ∃ T, MAIN [N, K] = some T ∧
      T = [Op.init_sfpu cb_in0 cb_out0, Op.add_int_tile_init]
        ++ (List.replicate (N / K) chunk_body).flatten ∧
      pages_popped cb_in0 T = N / K ∧ pages_pushed cb_out0 T = N / K ∧
      K * (N / K) = N - N % K ∧ K * (N / K) ≤ N ∧ (K * (N / K)) % 2 ^ 32 = K * (N / K) ∧
      (¬ K ∣ N → 0 < N % K ∧ K * (N / K) + N % K = N ∧
        ∀ input : List Page, input.length = N / K → run_kernel [N, K] input = some input) ∧
      (N < K → T = [Op.init_sfpu cb_in0 cb_out0, Op.add_int_tile_init] ∧
        ∀ input : List Page, run_kernel [N, K] input = some []) := by
  have hle : K * (N / K) ≤ N := Nat.mul_div_le N K
  have hsum : K * (N / K) + N % K = N := Nat.div_add_mod N K
  refine ⟨_, MAIN_eq N K hN hK hK0, rfl, ?_, ?_, by omega, hle,
    Nat.mod_eq_of_lt (lt_of_le_of_lt hle hN), ?_, ?_⟩
  · rw [pages_popped_append, pages_popped_chunks]
    simp [pages_popped, chunk_body]
  · rw [pages_pushed_append, pages_pushed_chunks]
    simp [pages_pushed, chunk_body]
  · intro hndvd
    refine ⟨?_, hsum, ?_⟩
    · rcases Nat.eq_zero_or_pos (N % K) with h0 | h0
      · exact absurd (Nat.dvd_of_mod_eq_zero h0) hndvd
      · exact h0
    · intro input hl
      rw [run_kernel_eq N K hN hK hK0, if_pos (le_of_eq hl.symm), ← hl, List.take_length]
  · intro hlt
    have h0 : N / K = 0 := Nat.div_eq_of_lt hlt
    refine ⟨by rw [h0]; rfl, ?_⟩
    intro input
    rw [run_kernel_eq N K hN hK hK0, h0]
    simp

theorem C10_floor_chunks_witness :
    (256 : Nat) < 2 ^ 32 ∧ (100 : Nat) < 2 ^ 32 ∧ 0 < 100 ∧
    ∃ T, MAIN [256, 100] = some T ∧
      T = [Op.init_sfpu cb_in0 cb_out0, Op.add_int_tile_init]
        ++ (List.replicate (256 / 100) chunk_body).flatten ∧
      pages_popped cb_in0 T = 256 / 100 ∧ pages_pushed cb_out0 T = 256 / 100 ∧
      100 * (256 / 100) = 256 - 256 % 100 ∧ 100 * (256 / 100) ≤ 256 ∧
      (100 * (256 / 100)) % 2 ^ 32 = 100 * (256 / 100) ∧
      (¬ 100 ∣ 256 → 0 < 256 % 100 ∧ 100 * (256 / 100) + 256 % 100 = 256 ∧
        ∀ input : List Page, input.length = 256 / 100 →
          run_kernel [256, 100] input = some input) ∧
      (256 < 100 → T = [Op.init_sfpu cb_in0 cb_out0, Op.add_int_tile_init] ∧
        ∀ input : List Page, run_kernel [256, 100] input = some []) :=
  ⟨by decide, by decide, by decide,
    C10_floor_chunks 256 100 (by decide) (by decide) (by decide)⟩

/-- C9: for 32-bit `N` and `K > 0`, every one of the `N / K` iterations issues the same ten
calls in this order: wait on the input buffer, acquire the dst registers, copy input page 0
into segment 2, commit the registers, pop the input page, reserve an output page, wait for the
registers, pack segment 2 into the output buffer, release the registers, push the output page.
The spec's sequence (wait, acquire, copy, commit, reserve, pack, push) is a subsequence of it;
the register calls of an iteration are acquire, copy, commit, wait, pack, release, each once,
copy and pack on segment 2; and after any number `j` of completed iterations the kernel has
issued `j` acquires and `j` releases. -/
theorem C9_iteration_order (N K : Nat) (hN : N < 2 ^ 32) (hK : K < 2 ^ 32) (hK0 : 0 < K) :
    ∃ T, MAIN [N, K] = some T ∧ T.length = 2 + 10 * (N / K) ∧
      (∀ j < N / K, (T.drop (2 + 10 * j)).take 10 =
        [ Op.cb_wait_front CBIndex.c_0 1, Op.tile_regs_acquire, Op.copy_tile CBIndex.c_0 0 2,
          Op.tile_regs_commit, Op.cb_pop_front CBIndex.c_0 1, Op.cb_reserve_back CBIndex.c_1 1,
          Op.tile_regs_wait, Op.pack_tile 2 CBIndex.c_1, Op.tile_regs_release,
          Op.cb_push_back CBIndex.c_1 1 ]) ∧
      List.Sublist
        [ Op.cb_wait_front CBIndex.c_0 1, Op.tile_regs_acquire, Op.copy_tile CBIndex.c_0 0 2,
          Op.tile_regs_commit, Op.cb_reserve_back CBIndex.c_1 1, Op.pack_tile 2 CBIndex.c_1,
          Op.cb_push_back CBIndex.c_1 1 ] chunk_body ∧
      reg_ops chunk_body =
        [ Op.tile_regs_acquire, Op.copy_tile CBIndex.c_0 0 2, Op.tile_regs_commit,
          Op.tile_regs_wait, Op.pack_tile 2 CBIndex.c_1, Op.tile_regs_release ] ∧
      (∀ j ≤ N / K, (T.take (2 + 10 * j)).count Op.tile_regs_acquire = j ∧
        (T.take (2 + 10 * j)).count Op.tile_regs_release = j) := by
  have hb : chunk_body.length = 10 := rfl
  refine ⟨_, MAIN_eq N K hN hK hK0, ?_, ?_, by decide, by decide, ?_⟩
  · rw [List.length_append, flatten_replicate_length, hb]
    simp
    ring
  · intro j hj
    have h2 : 2 + 10 * j
        = [Op.init_sfpu cb_in0 cb_out0, Op.add_int_tile_init].length + chunk_body.length * j := by
      rw [hb]; rfl
    rw [h2, List.drop_append]
    have := flatten_replicate_block j (N / K) chunk_body hj
    rw [hb] at this ⊢
    rw [this]
    rfl
  · intro j hj
    have h2 : 2 + 10 * j
        = [Op.init_sfpu cb_in0 cb_out0, Op.add_int_tile_init].length + chunk_body.length * j := by
      rw [hb]; rfl
    rw [h2, List.take_append, flatten_replicate_take j (N / K) chunk_body hj,
      List.count_append, List.count_append, count_flatten_replicate, count_flatten_replicate]
    constructor
    · have h1 : chunk_body.count Op.tile_regs_acquire = 1 := by decide
      have h0 : [Op.init_sfpu cb_in0 cb_out0, Op.add_int_tile_init].count Op.tile_regs_acquire
          = 0 := by decide
      rw [h1, h0]; omega
    · have h1 : chunk_body.count Op.tile_regs_release = 1 := by decide
      have h0 : [Op.init_sfpu cb_in0 cb_out0, Op.add_int_tile_init].count Op.tile_regs_release
          = 0 := by decide
      rw [h1, h0]; omega

theorem C9_iteration_order_witness :
    (256 : Nat) < 2 ^ 32 ∧ (64 : Nat) < 2 ^ 32 ∧ 0 < 64 ∧
    ∃ T, MAIN [256, 64] = some T ∧ T.length = 2 + 10 * (256 / 64) ∧
      (∀ j < 256 / 64, (T.drop (2 + 10 * j)).take 10 =
        [ Op.cb_wait_front CBIndex.c_0 1, Op.tile_regs_acquire, Op.copy_tile CBIndex.c_0 0 2,
          Op.tile_regs_commit, Op.cb_pop_front CBIndex.c_0 1, Op.cb_reserve_back CBIndex.c_1 1,
          Op.tile_regs_wait, Op.pack_tile 2 CBIndex.c_1, Op.tile_regs_release,
          Op.cb_push_back CBIndex.c_1 1 ]) ∧
      List.Sublist
        [ Op.cb_wait_front CBIndex.c_0 1, Op.tile_regs_acquire, Op.copy_tile CBIndex.c_0 0 2,
          Op.tile_regs_commit, Op.cb_reserve_back CBIndex.c_1 1, Op.pack_tile 2 CBIndex.c_1,
          Op.cb_push_back CBIndex.c_1 1 ] chunk_body ∧
      reg_ops chunk_body =
        [ Op.tile_regs_acquire, Op.copy_tile CBIndex.c_0 0 2, Op.tile_regs_commit,
          Op.tile_regs_wait, Op.pack_tile 2 CBIndex.c_1, Op.tile_regs_release ] ∧
      (∀ j ≤ 256 / 64, (T.take (2 + 10 * j)).count Op.tile_regs_acquire = j ∧
        (T.take (2 + 10 * j)).count Op.tile_regs_release = j) :=
  ⟨by decide, by decide, by decide,
    C9_iteration_order 256 64 (by decide) (by decide) (by decide)⟩


/-! ## The circular buffers as single-slot queues -/

theorem queue_ops_chunks (cb : CBIndex) (n : Nat) (b : List Op) :
    queue_ops cb (List.replicate n b).flatten = (List.replicate n (queue_ops cb b)).flatten := by
  induction n with
  | zero => rfl
  | succ n ih =>
    rw [List.replicate_succ, List.flatten_cons, List.replicate_succ, List.flatten_cons, ← ih]
    simp [queue_ops]

theorem pairing_foldlM_append (q : Pairing) (a b : List Op) :
    (a ++ b).foldlM pairing_step q
      = (a.foldlM pairing_step q).bind (fun r => b.foldlM pairing_step r) := by
  simp [List.foldlM_append]

theorem pairing_chunks (n : Nat) :
    (List.replicate n chunk_body).flatten.foldlM pairing_step ⟨false, false⟩
      = some ⟨false, false⟩ := by
  induction n with
  | zero => rfl
  | succ n ih =>
    rw [List.replicate_succ, List.flatten_cons, pairing_foldlM_append]
    have hb : chunk_body.foldlM pairing_step ⟨false, false⟩ = some ⟨false, false⟩ := by decide
    rw [hb]
    exact ih

theorem pairing_cons_isSome (q : Pairing) (op : Op) (rest : List Op)
    (h : ((op :: rest).foldlM pairing_step q).isSome = true) :
    ∃ r, pairing_step q op = some r ∧ (rest.foldlM pairing_step r).isSome = true := by
  rw [List.foldlM_cons] at h
  cases hr : pairing_step q op with
  | none => rw [hr] at h; simp at h
  | some r => rw [hr] at h; exact ⟨r, rfl, by simpa using h⟩

theorem step_preserves (capacity : CBIndex → Nat) (h0 : capacity CBIndex.c_0 = 1)
    (h1 : capacity CBIndex.c_1 = 1) (c d : Config) (a : Actor)
    (hs : step capacity c a = some d) (hinv : slot_invariant c) : slot_invariant d := by
  obtain ⟨q, hq, hr0, hr1, hres⟩ := hinv
  have hne : CBIndex.c_1 ≠ CBIndex.c_0 := by decide
  have hne2 : CBIndex.c_0 ≠ CBIndex.c_1 := by decide
  cases a with
  | reader =>
    simp only [step, reader_move, h0] at hs
    split at hs
    · rename_i hg
      simp only [Option.some.injEq] at hs
      subst hs
      refine ⟨q, hq, ?_, ?_, ?_⟩
      · simp; omega
      · simp [Function.update, hne]; exact hr1
      · intro hqr; simp [Function.update, hne]; exact hres hqr
    · simp at hs
  | writer =>
    simp only [step, writer_move] at hs
    split at hs
    · rename_i hg
      simp only [Option.some.injEq] at hs
      subst hs
      refine ⟨q, hq, ?_, ?_, ?_⟩
      · simp [Function.update, hne2]; exact hr0
      · simp; omega
      · intro hqr; simp; have := hres hqr; omega
    · simp at hs
  | kernel =>
    rcases hp : c.pending with _ | ⟨op, rest⟩
    · simp [step, hp] at hs
    · rw [hp] at hq
      obtain ⟨r, hstep, hrest⟩ := pairing_cons_isSome q op rest hq
      cases op with
      | cb_wait_front cb n =>
        simp only [step, hp] at hs
        split at hs
        · simp only [Option.some.injEq] at hs
          subst hs
          simp only [pairing_step] at hstep
          split at hstep
          · simp only [Option.some.injEq] at hstep
            subst hstep
            exact ⟨_, hrest, hr0, hr1, hres⟩
          · simp at hstep
        · simp at hs
      | cb_pop_front cb n =>
        simp only [step, hp, Option.some.injEq] at hs
        subst hs
        simp only [pairing_step] at hstep
        split at hstep
        · rename_i hc
          obtain ⟨hcb, hn, _⟩ := hc
          simp only [Option.some.injEq] at hstep
          subst hstep
          subst hcb hn
          refine ⟨_, hrest, ?_, ?_, ?_⟩
          · simp [cb_in0]; omega
          · simp [cb_in0, Function.update, hne]; exact hr1
          · intro hqr; simp [cb_in0, Function.update, hne]; exact hres hqr
        · simp at hstep
      | cb_reserve_back cb n =>
        simp only [step, hp] at hs
        split at hs
        · rename_i hg
          simp only [Option.some.injEq] at hs
          subst hs
          simp only [pairing_step] at hstep
          split at hstep
          · rename_i hc
            obtain ⟨hcb, hn, _⟩ := hc
            simp only [Option.some.injEq] at hstep
            subst hstep
            subst hcb hn
            refine ⟨_, hrest, hr0, hr1, ?_⟩
            intro _
            show c.ready CBIndex.c_1 = 0
            have hg1 : c.ready CBIndex.c_1 + 1 ≤ capacity CBIndex.c_1 := hg
            rw [h1] at hg1
            omega
          · simp at hstep
        · simp at hs
      | cb_push_back cb n =>
        simp only [step, hp, Option.some.injEq] at hs
        subst hs
        simp only [pairing_step] at hstep
        split at hstep
        · rename_i hc
          obtain ⟨hcb, hn, hqr⟩ := hc
          simp only [Option.some.injEq] at hstep
          subst hstep
          subst hcb hn
          have hz := hres hqr
          refine ⟨_, hrest, ?_, ?_, ?_⟩
          · simp [cb_out0, Function.update, hne2]; exact hr0
          · simp [cb_out0]; omega
          · intro hf; simp at hf
        · simp at hstep
      | init_sfpu _ _ =>
        simp only [step, hp, Option.some.injEq] at hs
        subst hs
        simp only [pairing_step, Option.some.injEq] at hstep
        subst hstep
        exact ⟨_, hrest, hr0, hr1, hres⟩
      | add_int_tile_init =>
        simp only [step, hp, Option.some.injEq] at hs
        subst hs
        simp only [pairing_step, Option.some.injEq] at hstep
        subst hstep
        exact ⟨_, hrest, hr0, hr1, hres⟩
      | tile_regs_acquire =>
        simp only [step, hp, Option.some.injEq] at hs
        subst hs
        simp only [pairing_step, Option.some.injEq] at hstep
        subst hstep
        exact ⟨_, hrest, hr0, hr1, hres⟩
      | copy_tile _ _ _ =>
        simp only [step, hp, Option.some.injEq] at hs
        subst hs
        simp only [pairing_step, Option.some.injEq] at hstep
        subst hstep
        exact ⟨_, hrest, hr0, hr1, hres⟩
      | tile_regs_commit =>
        simp only [step, hp, Option.some.injEq] at hs
        subst hs
        simp only [pairing_step, Option.some.injEq] at hstep
        subst hstep
        exact ⟨_, hrest, hr0, hr1, hres⟩
      | tile_regs_wait =>
        simp only [step, hp, Option.some.injEq] at hs
        subst hs
        simp only [pairing_step, Option.some.injEq] at hstep
        subst hstep
        exact ⟨_, hrest, hr0, hr1, hres⟩
      | pack_tile _ _ =>
        simp only [step, hp, Option.some.injEq] at hs
        subst hs
        simp only [pairing_step, Option.some.injEq] at hstep
        subst hstep
        exact ⟨_, hrest, hr0, hr1, hres⟩
      | tile_regs_release =>
        simp only [step, hp, Option.some.injEq] at hs
        subst hs
        simp only [pairing_step, Option.some.injEq] at hstep
        subst hstep
        exact ⟨_, hrest, hr0, hr1, hres⟩

theorem run_schedule_preserves (capacity : CBIndex → Nat) (h0 : capacity CBIndex.c_0 = 1)
    (h1 : capacity CBIndex.c_1 = 1) (schedule : List Actor) :
    ∀ (c d : Config), run_schedule capacity c schedule = some d → slot_invariant c →
      slot_invariant d := by
  induction schedule with
  | nil =>
    intro c d h hinv
    simp only [run_schedule, List.foldlM_nil] at h
    cases h
    exact hinv
  | cons a rest ih =>
    intro c d h hinv
    simp only [run_schedule, List.foldlM_cons] at h
    cases hc : step capacity c a with
    | none => rw [hc] at h; simp at h
    | some e =>
      rw [hc] at h
      exact ih e d (by simpa [run_schedule] using h) (step_preserves capacity h0 h1 c e a hc hinv)


theorem report_is_printf {α : Type} (number_failures DATA_SIZE : Nat) :
    ∃ fmt args, (report number_failures DATA_SIZE : HostCall α) = HostCall.printf fmt args := by
  unfold report
  split
  · exact ⟨_, _, rfl⟩
  · exact ⟨_, _, rfl⟩

theorem four_fp_cb_capacity (N K : Nat) (env : HostEnv F32) (cb : CBIndex) :
    cb_capacity (four_fp_main N K env) cb = [4 * K / (4 * K)] := by
  obtain ⟨fmt, args, h⟩ := report_is_printf (α := F32)
    (check_loop f32 N env.result_data (init_data f32 N).1 (init_data f32 N).2) N
  cases cb <;> simp [four_fp_main, cb_capacity, h]

/-- C4: for 32-bit `N` and `K > 0`, the kernel's calls on its input buffer are exactly
`N / K` repetitions of wait(1), pop(1), its calls on its output buffer exactly `N / K`
repetitions of reserve(1), push(1), and it makes no call on any other buffer; the host
configures each circular buffer with capacity total size / page size = 1 page; and with that
capacity, in every interleaving of the kernel with a reader feeding `c_0` and a writer draining
`c_1`, neither buffer ever holds more than one ready page. -/
theorem C4_single_slot_alternation (N K : Nat) (hN : N < 2 ^ 32) (hK : K < 2 ^ 32)
    (hK0 : 0 < K) (env : HostEnv F32) (capacity : CBIndex → Nat)
    (hc0 : cb_capacity (four_fp_main N K env) CBIndex.c_0 = [capacity CBIndex.c_0])
    (hc1 : cb_capacity (four_fp_main N K env) CBIndex.c_1 = [capacity CBIndex.c_1]) :
    ∃ T, MAIN [N, K] = some T ∧
      queue_ops CBIndex.c_0 T = (List.replicate (N / K)
        [Op.cb_wait_front CBIndex.c_0 1, Op.cb_pop_front CBIndex.c_0 1]).flatten ∧
      queue_ops CBIndex.c_1 T = (List.replicate (N / K)
        [Op.cb_reserve_back CBIndex.c_1 1, Op.cb_push_back CBIndex.c_1 1]).flatten ∧
      queue_ops CBIndex.c_2 T = [] ∧
      capacity CBIndex.c_0 = 1 ∧ capacity CBIndex.c_1 = 1 ∧
      ∀ (schedule : List Actor) (c : Config),
        run_schedule capacity { pending := T, ready := fun _ => 0 } schedule = some c →
        c.ready CBIndex.c_0 ≤ 1 ∧ c.ready CBIndex.c_1 ≤ 1 := by
  have hdiv : 4 * K / (4 * K) = 1 := Nat.div_self (by omega)
  have h0 : capacity CBIndex.c_0 = 1 := by
    rw [four_fp_cb_capacity, hdiv] at hc0
    simpa using hc0.symm
  have h1 : capacity CBIndex.c_1 = 1 := by
    rw [four_fp_cb_capacity, hdiv] at hc1
    simpa using hc1.symm
  refine ⟨_, MAIN_eq N K hN hK hK0, ?_, ?_, ?_, h0, h1, ?_⟩
  · have : queue_ops CBIndex.c_0 ([Op.init_sfpu cb_in0 cb_out0, Op.add_int_tile_init]
        ++ (List.replicate (N / K) chunk_body).flatten)
        = queue_ops CBIndex.c_0 (List.replicate (N / K) chunk_body).flatten := by
      simp [queue_ops]
    rw [this, queue_ops_chunks]
    rfl
  · have : queue_ops CBIndex.c_1 ([Op.init_sfpu cb_in0 cb_out0, Op.add_int_tile_init]
        ++ (List.replicate (N / K) chunk_body).flatten)
        = queue_ops CBIndex.c_1 (List.replicate (N / K) chunk_body).flatten := by
      simp [queue_ops]
    rw [this, queue_ops_chunks]
    rfl
  · have : queue_ops CBIndex.c_2 ([Op.init_sfpu cb_in0 cb_out0, Op.add_int_tile_init]
        ++ (List.replicate (N / K) chunk_body).flatten)
        = queue_ops CBIndex.c_2 (List.replicate (N / K) chunk_body).flatten := by
      simp [queue_ops]
    rw [this, queue_ops_chunks]
    have hb : queue_ops CBIndex.c_2 chunk_body = [] := by decide
    rw [hb]
    simp
  · intro schedule c hrun
    have hinit : slot_invariant { pending := [Op.init_sfpu cb_in0 cb_out0, Op.add_int_tile_init]
        ++ (List.replicate (N / K) chunk_body).flatten, ready := fun _ => 0 } := by
      refine ⟨⟨false, false⟩, ?_, by simp, by simp, by simp⟩
      show (List.foldlM pairing_step ⟨false, false⟩
        ([Op.init_sfpu cb_in0 cb_out0, Op.add_int_tile_init]
          ++ (List.replicate (N / K) chunk_body).flatten)).isSome = true
      rw [pairing_foldlM_append]
      have hi : [Op.init_sfpu cb_in0 cb_out0, Op.add_int_tile_init].foldlM pairing_step
          ⟨false, false⟩ = some ⟨false, false⟩ := rfl
      rw [hi, Option.some_bind, pairing_chunks]
      rfl
    obtain ⟨_, _, hr0, hr1, _⟩ := run_schedule_preserves capacity h0 h1 schedule _ c hrun hinit
    exact ⟨hr0, hr1⟩

theorem C4_single_slot_alternation_witness :
    (64 : Nat) < 2 ^ 32 ∧ 0 < 64 ∧
    cb_capacity (four_fp_main 64 64 ⟨fun i => i, []⟩) CBIndex.c_0 = [1] ∧
    cb_capacity (four_fp_main 64 64 ⟨fun i => i, []⟩) CBIndex.c_1 = [1] ∧
    ∃ T, MAIN [64, 64] = some T ∧
      queue_ops CBIndex.c_0 T = (List.replicate (64 / 64)
        [Op.cb_wait_front CBIndex.c_0 1, Op.cb_pop_front CBIndex.c_0 1]).flatten ∧
      queue_ops CBIndex.c_1 T = (List.replicate (64 / 64)
        [Op.cb_reserve_back CBIndex.c_1 1, Op.cb_push_back CBIndex.c_1 1]).flatten ∧
      queue_ops CBIndex.c_2 T = [] ∧
      (1 : Nat) = 1 ∧ (1 : Nat) = 1 ∧
      ∀ (schedule : List Actor) (c : Config),
        run_schedule (fun _ => 1) { pending := T, ready := fun _ => 0 } schedule = some c →
        c.ready CBIndex.c_0 ≤ 1 ∧ c.ready CBIndex.c_1 ≤ 1 :=
  ⟨by decide, by decide, by decide, by decide,
    C4_single_slot_alternation 64 64 (by decide) (by decide) (by decide) ⟨fun i => i, []⟩
      (fun _ => 1) (by decide) (by decide)⟩

/-- A complete run exists: with one input page delivered, the kernel's twelve calls for
`N = K = 64` all return, and the writer then drains the output page. -/
theorem run_schedule_complete_example :
    (run_schedule (fun _ => 1)
      { pending := [Op.init_sfpu cb_in0 cb_out0, Op.add_int_tile_init] ++ chunk_body,
        ready := fun _ => 0 }
      (Actor.reader :: List.replicate 12 Actor.kernel ++ [Actor.writer])).map
        (fun c => (c.pending, c.ready CBIndex.c_0, c.ready CBIndex.c_1)) = some ([], 0, 0) := by
  rfl


/-! ## Host drivers: input initialisation, result check, report -/

theorem set_at_length {α : Type} (l₁ : List α) (a b : α) (l₂ : List α) :
    (l₁ ++ a :: l₂).set l₁.length b = l₁ ++ b :: l₂ := by
  induction l₁ with
  | nil => rfl
  | cons x xs ih => simp [ih]

theorem init_data_upto {α : Type} (el : Elem α) (N : Nat) (k : Nat) (hk : k ≤ N) :
    (List.range k).foldl
      (fun (src : List α × List α) (i : Nat) =>
        (src.1.set i (el.of_int (i : Int)),
          src.2.set i (el.of_int ((N : Int) - (i : Int)))))
      (List.replicate N el.zero, List.replicate N el.zero)
    = ((List.range k).map (fun (i : Nat) => el.of_int (i : Int)) ++ List.replicate (N - k) el.zero,
       (List.range k).map (fun (i : Nat) => el.of_int ((N : Int) - (i : Int)))
         ++ List.replicate (N - k) el.zero) := by
  induction k with
  | zero => simp
  | succ k ih =>
    rw [List.range_succ, List.foldl_append, ih (by omega)]
    have hr : N - k = (N - (k + 1)) + 1 := by omega
    simp only [List.foldl_cons, List.foldl_nil, List.map_append, List.map_cons, List.map_nil]
    rw [hr, List.replicate_succ]
    have h1 : ((List.range k).map (fun (i : Nat) => el.of_int (i : Int))).length = k := by simp
    have h2 : ((List.range k).map (fun (i : Nat) => el.of_int ((N : Int) - (i : Int)))).length = k := by
      simp
    have e1 := set_at_length ((List.range k).map (fun (i : Nat) => el.of_int (i : Int))) el.zero
      (el.of_int (k : Int)) (List.replicate (N - (k + 1)) el.zero)
    have e2 := set_at_length ((List.range k).map (fun (i : Nat) => el.of_int ((N : Int) - (i : Int))))
      el.zero (el.of_int ((N : Int) - (k : Int))) (List.replicate (N - (k + 1)) el.zero)
    rw [h1] at e1
    rw [h2] at e2
    rw [e1, e2]
    simp

theorem init_data_eq {α : Type} (el : Elem α) (N : Nat) :
    init_data el N = ((List.range N).map (fun (i : Nat) => el.of_int (i : Int)),
      (List.range N).map (fun (i : Nat) => el.of_int ((N : Int) - (i : Int)))) := by
  unfold init_data
  rw [init_data_upto el N N (le_refl N)]
  simp

theorem count_loop {p : Nat → Bool} (l : List Nat) (a : Nat) :
    l.foldl (fun (number_failures : Nat) (i : Nat) =>
      if p i then number_failures + 1 else number_failures) a = a + l.countP p := by
  induction l generalizing a with
  | nil => simp
  | cons x xs ih =>
    rw [List.foldl_cons, ih, List.countP_cons]
    by_cases hx : p x
    · simp [hx]; omega
    · simp [hx]

theorem check_loop_eq {α : Type} (el : Elem α) (N : Nat) (C A B : List α) :
    check_loop el N C A B = (List.range N).countP (fun i =>
      el.ne (C.getD i el.zero) (el.add (A.getD i el.zero) (B.getD i el.zero))) := by
  unfold check_loop
  rw [count_loop]
  simp


theorem three_report (N K : Nat) (env : HostEnv Nat) :
    (three_main N K env).getLast? = some
      (report (check_loop u32 N env.result_data (init_data u32 N).1 (init_data u32 N).2) N) := by
  simp [three_main]

theorem four_fp_report (N K : Nat) (env : HostEnv F32) :
    (four_fp_main N K env).getLast? = some
      (report (check_loop f32 N env.result_data (init_data f32 N).1 (init_data f32 N).2) N) := by
  simp [four_fp_main]

/-- C6: in both drivers the check loop leaves in `number_failures` the number of indices
`i < DATA_SIZE` at which `result_data[i] != src0_data[i] + src1_data[i]` holds (for `uint32_t`:
at which the result differs from the sum modulo `2 ^ 32`); it is at most `DATA_SIZE`, and zero
exactly when no index mismatches; the report is the success line with `DATA_SIZE` exactly when
`number_failures` is zero, and otherwise the failure line with `number_failures` and
`DATA_SIZE`; that report is the last thing either driver does. -/
theorem C6_number_failures_counts_mismatches {α : Type} (el : Elem α) (N : Nat)
    (C A B : List α) :
    check_loop el N C A B = (List.range N).countP (fun i =>
      el.ne (C.getD i el.zero) (el.add (A.getD i el.zero) (B.getD i el.zero))) ∧
    check_loop el N C A B ≤ N ∧
    (check_loop el N C A B = 0 ↔
      ∀ i < N, el.ne (C.getD i el.zero) (el.add (A.getD i el.zero) (B.getD i el.zero)) = false) ∧
    ((report (check_loop el N C A B) N : HostCall α)
        = HostCall.printf "Completed successfully on the device, with %d elements\n" [(N : Int)]
      ↔ check_loop el N C A B = 0) ∧
    (check_loop el N C A B ≠ 0 →
      (report (check_loop el N C A B) N : HostCall α)
        = HostCall.printf "Failure on the device, %d fails with %d elements\n"
            [((check_loop el N C A B : Nat) : Int), (N : Int)]) ∧
    (∀ (R S T : List Nat), check_loop u32 N R S T = (List.range N).countP (fun i =>
      decide (R.getD i 0 ≠ (S.getD i 0 + T.getD i 0) % 2 ^ 32))) ∧
    (∀ (K : Nat) (env : HostEnv Nat), (three_main N K env).getLast? = some
      (report (check_loop u32 N env.result_data (init_data u32 N).1 (init_data u32 N).2) N)) ∧
    (∀ (K : Nat) (env : HostEnv F32), (four_fp_main N K env).getLast? = some
      (report (check_loop f32 N env.result_data (init_data f32 N).1 (init_data f32 N).2) N)) := by
  refine ⟨check_loop_eq el N C A B, ?_, ?_, ?_, ?_, ?_, fun K env => three_report N K env,
    fun K env => four_fp_report N K env⟩
  · rw [check_loop_eq]
    calc _ ≤ (List.range N).length := List.countP_le_length _
      _ = N := List.length_range N
  · rw [check_loop_eq, List.countP_eq_zero]
    constructor
    · intro h i hi
      have := h i (List.mem_range.mpr hi)
      simpa using this
    · intro h i hi
      have := h i (List.mem_range.mp hi)
      simpa using this
  · constructor
    · intro h
      by_contra hne
      simp [report, hne] at h
    · intro h
      simp [report, h]
  · intro hne
    simp [report, hne]
  · intro R S T
    rw [check_loop_eq]
    apply List.countP_congr
    intro i _
    simp [u32]


theorem four_fp_runtime_args (N K : Nat) (env : HostEnv F32) :
    runtime_args (four_fp_main N K env) 0 = [[env.address 0, env.address 1, N, K]] ∧
    runtime_args (four_fp_main N K env) 1 = [[env.address 2, N, K]] ∧
    runtime_args (four_fp_main N K env) 2 = [[N, K]] ∧
    created_kernels (four_fp_main N K env) = ["kernels/dataflow/read_kernel.cpp",
      "kernels/dataflow/write_kernel.cpp", "kernels/compute/compute_kernel.cpp"] := by
  obtain ⟨fmt, args, h⟩ := report_is_printf (α := F32)
    (check_loop f32 N env.result_data (init_data f32 N).1 (init_data f32 N).2) N
  simp [four_fp_main, runtime_args, created_kernels, h]

theorem three_runtime_args (N K : Nat) (env : HostEnv Nat) :
    runtime_args (three_main N K env) 0
      = [[env.address 0, env.address 1, env.address 3, env.address 4, N, K]] ∧
    runtime_args (three_main N K env) 1 = [[env.address 2, N, K]] ∧
    runtime_args (three_main N K env) 2 = [] ∧
    created_kernels (three_main N K env) = ["kernels/dataflow/read_kernel.cpp",
      "kernels/dataflow/write_kernel.cpp"] := by
  obtain ⟨fmt, args, h⟩ := report_is_printf (α := Nat)
    (check_loop u32 N env.result_data (init_data u32 N).1 (init_data u32 N).2) N
  simp [three_main, runtime_args, created_kernels, h]

/-- C8, as stated, fails for `three.cpp`: with buffer addresses `0, 1024, 2048, 3072, 4096` the
list it binds to the reader is `[0, 1024, 3072, 4096, 256, 64]` (two L1 buffer addresses stand
between the source addresses and `N`), not `[0, 1024, 256, 64]`, and it creates and binds no
compute kernel. -/
theorem C8_counterexample :
    runtime_args (three_main 256 64 ⟨fun i => 1024 * i, []⟩) 0
      = [[0, 1024, 3072, 4096, 256, 64]] ∧
    runtime_args (three_main 256 64 ⟨fun i => 1024 * i, []⟩) 0 ≠ [[0, 1024, 256, 64]] ∧
    runtime_args (three_main 256 64 ⟨fun i => 1024 * i, []⟩) 2 ≠ [[256, 64]] ∧
    created_kernels (three_main 256 64 ⟨fun i => 1024 * i, []⟩)
      = ["kernels/dataflow/read_kernel.cpp", "kernels/dataflow/write_kernel.cpp"] := by
  obtain ⟨h0, _, h2, hk⟩ := three_runtime_args 256 64 ⟨fun i => 1024 * i, []⟩
  rw [h0, h2, hk]
  decide

/-- C8 (amended): `four-fp.cpp` binds `[src_a_addr, src_b_addr, N, K]` to the reader,
`[dst_addr, N, K]` to the writer and `[N, K]` to the compute kernel, which reads argument 0 as
`N` and argument 1 as `K`; `three.cpp` binds `[src_a_addr, src_b_addr, l1_addr_1, l1_addr_2,
N, K]` to the reader and `[dst_addr, N, K]` to the writer, and creates and binds no compute
kernel.  Each kernel is bound once, and every bound list ends in the same `N` and `K`. -/
theorem C8_bound_argument_lists (N K : Nat) (hN : N < 2 ^ 32) (hK : K < 2 ^ 32)
    (env3 : HostEnv Nat) (env4 : HostEnv F32) :
    runtime_args (four_fp_main N K env4) 0 = [[env4.address 0, env4.address 1, N, K]] ∧
    runtime_args (four_fp_main N K env4) 1 = [[env4.address 2, N, K]] ∧
    runtime_args (four_fp_main N K env4) 2 = [[N, K]] ∧
    created_kernels (four_fp_main N K env4) = ["kernels/dataflow/read_kernel.cpp",
      "kernels/dataflow/write_kernel.cpp", "kernels/compute/compute_kernel.cpp"] ∧
    get_arg_val [N, K] 0 = some N ∧ get_arg_val [N, K] 1 = some K ∧
    runtime_args (three_main N K env3) 0
      = [[env3.address 0, env3.address 1, env3.address 3, env3.address 4, N, K]] ∧
    runtime_args (three_main N K env3) 1 = [[env3.address 2, N, K]] ∧
    runtime_args (three_main N K env3) 2 = [] ∧
    created_kernels (three_main N K env3) = ["kernels/dataflow/read_kernel.cpp",
      "kernels/dataflow/write_kernel.cpp"] := by
  obtain ⟨a0, a1, a2, ak⟩ := four_fp_runtime_args N K env4
  obtain ⟨b0, b1, b2, bk⟩ := three_runtime_args N K env3
  refine ⟨a0, a1, a2, ak, ?_, ?_, b0, b1, b2, bk⟩
  · simp only [get_arg_val, List.get?, Option.map_some', Nat.mod_eq_of_lt hN]
  · simp only [get_arg_val, List.get?, Option.map_some', Nat.mod_eq_of_lt hK]

theorem C8_bound_argument_lists_witness :
    (256 : Nat) < 2 ^ 32 ∧ (64 : Nat) < 2 ^ 32 ∧
    runtime_args (four_fp_main 256 64 ⟨fun i => 1024 * i, []⟩) 0 = [[0, 1024, 256, 64]] ∧
    runtime_args (four_fp_main 256 64 ⟨fun i => 1024 * i, []⟩) 1 = [[2048, 256, 64]] ∧
    runtime_args (four_fp_main 256 64 ⟨fun i => 1024 * i, []⟩) 2 = [[256, 64]] ∧
    get_arg_val [256, 64] 0 = some 256 ∧ get_arg_val [256, 64] 1 = some 64 :=
  have h := C8_bound_argument_lists 256 64 (by decide) (by decide)
    ⟨fun i => 1024 * i, []⟩ ⟨fun i => 1024 * i, []⟩
  ⟨by decide, by decide, h.1, h.2.1, h.2.2.1, h.2.2.2.2.1, h.2.2.2.2.2.1⟩


theorem four_fp_calls (N K : Nat) (env : HostEnv F32) :
    (four_fp_main N K env).head? = some (HostCall.CreateDevice 0) ∧
    ((four_fp_main N K env).filter allocates).length = 10 ∧
    HostCall.LaunchProgram ∈ four_fp_main N K env ∧
    (four_fp_main N K env).length = 20 := by
  obtain ⟨fmt, args, h⟩ := report_is_printf (α := F32)
    (check_loop f32 N env.result_data (init_data f32 N).1 (init_data f32 N).2) N
  simp [four_fp_main, allocates, h]

theorem three_calls (N K : Nat) (env : HostEnv Nat) :
    (three_main N K env).head? = some (HostCall.CreateDevice 0) ∧
    ((three_main N K env).filter allocates).length = 9 ∧
    HostCall.LaunchProgram ∈ three_main N K env ∧
    (three_main N K env).length = 18 := by
  obtain ⟨fmt, args, h⟩ := report_is_printf (α := Nat)
    (check_loop u32 N env.result_data (init_data u32 N).1 (init_data u32 N).2) N
  simp [three_main, allocates, h]

/-- C2, as stated, fails: with `N = 256` and `K = 100` (`K` does not divide `N`) the driver
opens the device as its first call, makes ten resource allocations and launches the program,
and the compute kernel returns normally after two iterations. -/
theorem C2_counterexample :
    ¬ (100 ∣ 256) ∧
    (four_fp_main 256 100 ⟨fun i => 1024 * i, []⟩).head? = some (HostCall.CreateDevice 0) ∧
    ((four_fp_main 256 100 ⟨fun i => 1024 * i, []⟩).filter allocates).length = 10 ∧
    HostCall.LaunchProgram ∈ four_fp_main 256 100 ⟨fun i => 1024 * i, []⟩ ∧
    MAIN [256, 100] = some ([Op.init_sfpu cb_in0 cb_out0, Op.add_int_tile_init]
      ++ chunk_body ++ chunk_body) := by
  obtain ⟨h1, h2, h3, _⟩ := four_fp_calls 256 100 ⟨fun i => 1024 * i, []⟩
  refine ⟨by decide, h1, h2, h3, ?_⟩
  rw [MAIN_eq 256 100 (by decide) (by decide) (by decide)]
  rfl

/-- C2 (amended): neither driver checks that `K` divides `N`, and no configuration error
exists: for every `N` and `K`, `four-fp.cpp` makes the same twenty calls, starting with
`CreateDevice`, allocating ten resources, launching the program and ending with the report,
and `three.cpp` likewise makes eighteen calls with nine allocations; for 32-bit `N` and
`K > 0` the compute kernel returns after `N / K` iterations whether or not `K` divides `N`.
In the drivers' own configuration, `N = 256` and `K = 64`, `K` divides `N`. -/
theorem C2_no_divisibility_check (N K : Nat) (hN : N < 2 ^ 32) (hK : K < 2 ^ 32)
    (hK0 : 0 < K) (env3 : HostEnv Nat) (env4 : HostEnv F32) :
    ((four_fp_main N K env4).head? = some (HostCall.CreateDevice 0) ∧
      ((four_fp_main N K env4).filter allocates).length = 10 ∧
      HostCall.LaunchProgram ∈ four_fp_main N K env4 ∧
      (four_fp_main N K env4).length = 20 ∧
      ∃ fmt args, (four_fp_main N K env4).getLast? = some (HostCall.printf fmt args)) ∧
    ((three_main N K env3).head? = some (HostCall.CreateDevice 0) ∧
      ((three_main N K env3).filter allocates).length = 9 ∧
      HostCall.LaunchProgram ∈ three_main N K env3 ∧
      (three_main N K env3).length = 18 ∧
      ∃ fmt args, (three_main N K env3).getLast? = some (HostCall.printf fmt args)) ∧
    (∃ T, MAIN [N, K] = some T ∧ T.length = 2 + 10 * (N / K)) ∧
    64 ∣ 256 := by
  obtain ⟨a1, a2, a3, a4⟩ := four_fp_calls N K env4
  obtain ⟨b1, b2, b3, b4⟩ := three_calls N K env3
  obtain ⟨f4, g4, h4⟩ := report_is_printf (α := F32)
    (check_loop f32 N env4.result_data (init_data f32 N).1 (init_data f32 N).2) N
  obtain ⟨f3, g3, h3⟩ := report_is_printf (α := Nat)
    (check_loop u32 N env3.result_data (init_data u32 N).1 (init_data u32 N).2) N
  refine ⟨⟨a1, a2, a3, a4, f4, g4, ?_⟩, ⟨b1, b2, b3, b4, f3, g3, ?_⟩, ?_, by decide⟩
  · rw [four_fp_report, h4]
  · rw [three_report, h3]
  · refine ⟨_, MAIN_eq N K hN hK hK0, ?_⟩
    rw [List.length_append, flatten_replicate_length]
    simp [chunk_body]
    ring

theorem C2_no_divisibility_check_witness :
    (256 : Nat) < 2 ^ 32 ∧ (100 : Nat) < 2 ^ 32 ∧ 0 < 100 ∧ ¬ (100 ∣ 256) ∧
    HostCall.LaunchProgram ∈ four_fp_main 256 100 ⟨fun i => 1024 * i, []⟩ ∧
    HostCall.LaunchProgram ∈ three_main 256 100 ⟨fun i => 1024 * i, []⟩ ∧
    ∃ T, MAIN [256, 100] = some T ∧ T.length = 2 + 10 * (256 / 100) :=
  have h := C2_no_divisibility_check 256 100 (by decide) (by decide) (by decide)
    ⟨fun i => 1024 * i, []⟩ ⟨fun i => 1024 * i, []⟩
  ⟨by decide, by decide, by decide, by decide, h.1.2.2.1, h.2.1.2.2.1, h.2.2.1⟩


theorem init_data_getD {α : Type} (el : Elem α) (N i : Nat) (hi : i < N) :
    (init_data el N).1.getD i el.zero = el.of_int (i : Int) ∧
    (init_data el N).2.getD i el.zero = el.of_int ((N : Int) - (i : Int)) := by
  rw [init_data_eq]
  simp [List.getD, hi]

set_option maxRecDepth 100000 in
theorem u32_init_256 : ∀ i < 256, u32.of_int ((i : Nat) : Int) = i ∧
    u32.of_int ((256 : Int) - ((i : Nat) : Int)) = 256 - i := by
  decide

set_option maxRecDepth 100000 in
theorem f32_init_256 : ∀ i < 256, f32.of_int ((i : Nat) : Int) = F32.fin false i 0 ∧
    f32.of_int ((256 : Int) - ((i : Nat) : Int)) = F32.fin false (256 - i) 0 ∧
    f32.add (F32.fin false i 0) (F32.fin false (256 - i) 0) = F32.fin false 256 0 := by
  decide


theorem getD_replicate {α : Type} (n i : Nat) (a d : α) (h : i < n) :
    (List.replicate n a).getD i d = a := by
  simp [List.getD, List.getElem?_replicate, h]

theorem check_loop_u32_256 (C : List Nat) :
    check_loop u32 256 C (init_data u32 256).1 (init_data u32 256).2
      = (List.range 256).countP (fun i => decide (C.getD i 0 ≠ 256)) := by
  rw [check_loop_eq]
  apply List.countP_congr
  intro i hi
  have hi' : i < 256 := List.mem_range.mp hi
  obtain ⟨h1, h2⟩ := init_data_getD u32 256 i hi'
  obtain ⟨g1, g2⟩ := u32_init_256 i hi'
  rw [h1, h2]
  have e1 : u32.of_int ((i : Nat) : Int) = i := g1
  have e2 : u32.of_int (((256 : Nat) : Int) - ((i : Nat) : Int)) = 256 - i := g2
  rw [e1, e2]
  have hs : u32.add i (256 - i) = 256 := by
    show (i + (256 - i)) % 2 ^ 32 = 256
    have : i + (256 - i) = 256 := by omega
    rw [this]
    norm_num
  rw [hs]
  show (C.getD i 0 != 256) = true ↔ decide (C.getD i 0 ≠ 256) = true
  simp

theorem check_loop_f32_256 (C : List F32) :
    check_loop f32 256 C (init_data f32 256).1 (init_data f32 256).2
      = (List.range 256).countP (fun i => F32.ne (C.getD i f32.zero) (F32.fin false 256 0)) := by
  rw [check_loop_eq]
  apply List.countP_congr
  intro i hi
  have hi' : i < 256 := List.mem_range.mp hi
  obtain ⟨h1, h2⟩ := init_data_getD f32 256 i hi'
  obtain ⟨g1, g2, g3⟩ := f32_init_256 i hi'
  rw [h1, h2]
  have e2 : f32.of_int (((256 : Nat) : Int) - ((i : Nat) : Int)) = F32.fin false (256 - i) 0 := g2
  rw [g1, e2, g3]
  rfl

/-- C7: with `DATA_SIZE` 256 the drivers' initialisation loop stores `src0_data[i] = i` and
`src1_data[i] = 256 - i` for every `i < 256`.  In `three.cpp` the sum is 256 as a natural
number, below `2 ^ 32`, so the `uint32_t` addition gives 256 without wrapping; in `four-fp.cpp`
both values and their `float` sum are exact (the sum is the binary32 value 256).  Hence in
either driver the check loop counts exactly the indices whose result differs from 256: a
result of 256 everywhere gives `number_failures = 0`, and any result element other than 256
makes `number_failures` positive. -/
theorem C7_reference_is_256 :
    (∀ i < 256, (init_data u32 256).1.getD i 0 = i ∧ (init_data u32 256).2.getD i 0 = 256 - i ∧
      (init_data u32 256).1.getD i 0 + (init_data u32 256).2.getD i 0 = 256 ∧
      (init_data u32 256).1.getD i 0 + (init_data u32 256).2.getD i 0 < 2 ^ 32 ∧
      u32.add ((init_data u32 256).1.getD i 0) ((init_data u32 256).2.getD i 0) = 256) ∧
    (∀ i < 256, (init_data f32 256).1.getD i f32.zero = F32.fin false i 0 ∧
      (init_data f32 256).2.getD i f32.zero = F32.fin false (256 - i) 0 ∧
      f32.add ((init_data f32 256).1.getD i f32.zero) ((init_data f32 256).2.getD i f32.zero)
        = F32.fin false 256 0) ∧
    check_loop u32 256 (List.replicate 256 256) (init_data u32 256).1 (init_data u32 256).2 = 0 ∧
    check_loop f32 256 (List.replicate 256 (F32.fin false 256 0))
      (init_data f32 256).1 (init_data f32 256).2 = 0 ∧
    (∀ C : List Nat, check_loop u32 256 C (init_data u32 256).1 (init_data u32 256).2
      = (List.range 256).countP (fun i => decide (C.getD i 0 ≠ 256))) ∧
    (∀ C : List F32, check_loop f32 256 C (init_data f32 256).1 (init_data f32 256).2
      = (List.range 256).countP (fun i => F32.ne (C.getD i f32.zero) (F32.fin false 256 0))) ∧
    (∀ (C : List Nat) (i : Nat), i < 256 → C.getD i 0 ≠ 256 →
      0 < check_loop u32 256 C (init_data u32 256).1 (init_data u32 256).2) ∧
    (∀ (C : List F32) (i : Nat), i < 256 →
      F32.ne (C.getD i f32.zero) (F32.fin false 256 0) = true →
      0 < check_loop f32 256 C (init_data f32 256).1 (init_data f32 256).2) := by
  refine ⟨?_, ?_, ?_, ?_, check_loop_u32_256, check_loop_f32_256, ?_, ?_⟩
  · intro i hi
    obtain ⟨h1, h2⟩ := init_data_getD u32 256 i hi
    obtain ⟨g1, g2⟩ := u32_init_256 i hi
    have e1 : (init_data u32 256).1.getD i 0 = i := h1.trans g1
    have e2 : (init_data u32 256).2.getD i 0 = 256 - i := h2.trans g2
    rw [e1, e2]
    have hsum : i + (256 - i) = 256 := by omega
    refine ⟨rfl, rfl, hsum, by rw [hsum]; norm_num, ?_⟩
    show (i + (256 - i)) % 2 ^ 32 = 256
    rw [hsum]
    norm_num
  · intro i hi
    obtain ⟨h1, h2⟩ := init_data_getD f32 256 i hi
    obtain ⟨g1, g2, g3⟩ := f32_init_256 i hi
    have e1 : (init_data f32 256).1.getD i f32.zero = F32.fin false i 0 := h1.trans g1
    have e2 : (init_data f32 256).2.getD i f32.zero = F32.fin false (256 - i) 0 := h2.trans g2
    rw [e1, e2]
    exact ⟨rfl, rfl, g3⟩
  · rw [check_loop_u32_256, List.countP_eq_zero]
    intro i hi
    have hi' : i < 256 := List.mem_range.mp hi
    rw [getD_replicate 256 i 256 0 hi']
    simp
  · rw [check_loop_f32_256, List.countP_eq_zero]
    intro i hi
    have hi' : i < 256 := List.mem_range.mp hi
    rw [getD_replicate 256 i (F32.fin false 256 0) f32.zero hi']
    decide
  · intro C i hi hne
    rw [check_loop_u32_256, List.countP_pos_iff]
    exact ⟨i, List.mem_range.mpr hi, by simpa using hne⟩
  · intro C i hi hne
    rw [check_loop_f32_256, List.countP_pos_iff]
    exact ⟨i, List.mem_range.mpr hi, hne⟩

end TTSim
